import Mathlib

/-! Trinity peer protocol engine: a shallow embedding of `network/peer.go`.

The development models one `Peer` together with the `TLSServer` it belongs to.

* Go pointers that may be `nil` are `Option`s; a nil dereference (a Go panic) is the
  `Outcome.fault` result, which keeps the state reached when the panic happened.
* Logging is not modelled, except that the arguments of a log call are evaluated:
  `me.Connection.RemoteAddr()` faults on a nil connection.
* Results of the network and of the clock (`time.Now()`, the TLS handshake, the error
  returned by the gob encoder, fresh packet ids) are parameters of the operations.
* Points in time and durations are integers counting nanoseconds.
* The two background loops are modelled one iteration at a time. A caller of
  `SendPacketWaitReply` and the receive loop run side by side, so that method is
  modelled in the pieces between which the receive loop can run.
* A channel has no buffer: a send completes when a receive on the same channel is
  waiting, and otherwise the goroutine is parked, which is the `Outcome.blocked` result.
* A `*packets.Packet` sent on a channel is a pointer: what it shows is what the variable
  it points to holds when it is read.
-/

namespace Trinity

/-! ## Go maps -/

/-- A Go map, kept as an association list with at most one entry per key. -/
structure GoMap (κ ν : Type) where
  entries : List (κ × ν)
deriving DecidableEq

namespace GoMap

variable {κ ν : Type} [DecidableEq κ]

/-- The empty map literal. -/
def empty : GoMap κ ν := ⟨[]⟩

/-- The first value stored under `k` in an association list. -/
def lookupIn : List (κ × ν) → κ → Option ν
  | [], _ => none
  | e :: rest, k => if e.1 = k then some e.2 else lookupIn rest k

/-- The association list without the entries stored under `k`. -/
def removeFrom : List (κ × ν) → κ → List (κ × ν)
  | [], _ => []
  | e :: rest, k => if e.1 = k then removeFrom rest k else e :: removeFrom rest k

/-- The two-valued lookup `v, found := m[k]`. -/
def find (m : GoMap κ ν) (k : κ) : Option ν := lookupIn m.entries k

/-- The builtin `delete(m, k)`. -/
def delete (m : GoMap κ ν) (k : κ) : GoMap κ ν := ⟨removeFrom m.entries k⟩

/-- The assignment `m[k] = v`. -/
def insert (m : GoMap κ ν) (k : κ) (v : ν) : GoMap κ ν :=
  ⟨(m.delete k).entries ++ [(k, v)]⟩

/-- The keys of the map. -/
def keys (m : GoMap κ ν) : List κ := m.entries.map Prod.fst

/-- The entries as `for k, v := range m` visits them. Go leaves the order open and visits
every key once: `order` is the order of the keys taken by this run of the loop, and an
`order` that is not a rearrangement of the keys is not a run of the loop, for which the
entries are given as they are stored. -/
def range (m : GoMap κ ν) (order : List κ) : List (κ × ν) :=
  if order.Perm m.keys then
    order.filterMap (fun k => (m.find k).map (fun v => (k, v)))
  else
    m.entries

end GoMap

/-! ## Data model -/

/-- A `[16]byte` packet identifier, read as a number. -/
abbrev PacketID := Nat

/-- A `consistenthash.NodeId`, read as a number. -/
abbrev NodeId := Nat

/-- A byte slice. -/
abbrev Bytes := List Nat

/-- The identity of a channel created by `make(chan ...)`. -/
abbrev ChanRef := Nat

/-- The duration `time.Second`; a `time.Time` and a `time.Duration` are integers counting
nanoseconds. -/
def Second : Int := 1000000000

/-- The method `t.Add(d)` of `time.Time`. -/
def Time.Add (t d : Int) : Int := t + d

/-- The method `t.After(u)` of `time.Time`: `t` is strictly later than `u`. -/
def Time.After (t u : Int) : Bool := decide (u < t)

def PeerStateDisconnected : Nat := 0
def PeerStateConnecting : Nat := 1
def PeerStateHandshake : Nat := 2
def PeerStateConnected : Nat := 3
def PeerStateDefib : Nat := 4

/-- The membership descriptor `consistenthash.ServerNetworkNode`, with the two fields the
peer code reads. -/
structure ServerNetworkNode where
  ID : NodeId
  HostAddr : String
deriving DecidableEq

/-- Modelled from the spec: the command codes of package `packets`. Only `CMD_PEERLIST`
is declared under src; the spec leaves the numeric values open, so the codes are
constructors and `other` stands for every code that is none of the named ones. -/
inductive Command where
  | CMD_HEARTBEAT
  | CMD_DISTRIBUTION
  | CMD_PEERLIST
  | CMD_KVSTORE
  | CMD_KVSTORE_ACK
  | CMD_KVSTORE_NOT_FOUND
  | other (code : Nat)
deriving DecidableEq

/-- Modelled from the spec: the sub-commands of a `KVStorePacket`, not declared under src. -/
inductive KVCommand where
  | CMD_KVSTORE_SET
  | CMD_KVSTORE_GET
  | CMD_KVSTORE_DELETE
  | other (code : Nat)
deriving DecidableEq

/-- Modelled from the spec: `packets.KVStorePacket`, not declared under src; the fields
are the ones `peer.go` reads and writes. -/
structure KVStorePacket where
  Command : KVCommand
  Key : String
  Data : Bytes
  Flags : Nat
  ExpiresAt : Int
deriving DecidableEq

/-- The dynamically typed `Payload` of a packet, one constructor per type that `peer.go`
puts in or asserts. -/
inductive Payload where
  | nil
  | node (n : ServerNetworkNode)
  | peers (addrs : List String)
  | kv (p : KVStorePacket)
  | str (s : String)
deriving DecidableEq

/-- Modelled from the spec: `packets.Packet`, not declared under src; the fields are the
ones `peer.go` reads. -/
structure Packet where
  Command : Command
  ID : PacketID
  RequestID : PacketID
  Payload : Payload
deriving DecidableEq

/-- Modelled from the spec: `packets.NewPacket`, not under src. The packet gets the given
fresh id and the zero request id. -/
def NewPacket (fresh : PacketID) (cmd : Command) (payload : Payload) : Packet :=
  { Command := cmd, ID := fresh, RequestID := 0, Payload := payload }

/-- Modelled from the spec: `packets.NewResponsePacket`, not under src. The packet gets
the given fresh id and echoes the id of the request it answers. -/
def NewResponsePacket (fresh : PacketID) (cmd : Command) (requestID : PacketID)
    (payload : Payload) : Packet :=
  { Command := cmd, ID := fresh, RequestID := requestID, Payload := payload }

/-- The transport `*tls.Conn`: its remote address and how often `Close` was called. -/
structure Conn where
  RemoteAddr : String
  closeCalls : Nat
deriving DecidableEq

/-- The method `Close`. -/
def Conn.Close (c : Conn) : Conn := { c with closeCalls := c.closeCalls + 1 }

/-- A `*time.Ticker`: how often `Stop` was called. -/
structure Ticker where
  stopCalls : Nat
deriving DecidableEq

/-- The method `Stop`. -/
def Ticker.Stop (t : Ticker) : Ticker := { t with stopCalls := t.stopCalls + 1 }

/-- A certificate of the remote side, with its subject common name. -/
structure Certificate where
  CommonName : String
deriving DecidableEq

/-- A gob encoder or decoder, created over a connection. -/
structure Codec where
  over : String
deriving DecidableEq

/-- The struct `Peer` (without the logger; the server is the other half of `World`). -/
structure Peer where
  Address : String
  State : Nat
  Connection : Option Conn
  HeartbeatTicker : Option Ticker
  Writer : Option Codec
  Reader : Option Codec
  LastHeartbeat : Int
  ServerNetworkNode : Option ServerNetworkNode
  Replies : GoMap PacketID ChanRef
deriving DecidableEq

/-- A `*Peer` stored in the registry: the modelled peer itself, or another peer of which
only the descriptor is read. -/
inductive PeerRef where
  | self
  | another (node : Option ServerNetworkNode)
deriving DecidableEq

/-- The part of `TLSServer` that `peer.go` touches. `ext` is everything behind the
server's own methods (key-value store, hash ring, dialer). -/
structure TLSServer (ε : Type) where
  Connections : GoMap NodeId PeerRef
  ServerNode : ServerNetworkNode
  ext : ε
deriving DecidableEq

/-- A `*packets.Packet`: the address of the variable `packet` that `process` declares once
before its loop and decodes every packet into, or a pointer to a packet that is not written
again (as `packets.NewPacket` returns). -/
inductive PacketRef where
  | processPacket
  | boxed (p : Packet)
deriving DecidableEq

/-- One peer, its server, and a record of the effects the peer code has on the outside:
packets handed to the encoder, pointers sent on reply channels, channels created,
`delete` calls on the registry, `ConnectTo` calls on the server, and background loops
started. `packet` is the variable `packet` of `process`, and `receiving` are the channels
on which a caller of `SendPacketWaitReply` is waiting in its receive. -/
structure World (ε : Type) where
  peer : Peer
  server : TLSServer ε
  sent : List Packet
  delivered : List (ChanRef × PacketRef)
  nextChan : ChanRef
  registryDeletes : List NodeId
  connectCalls : List String
  heartbeatLoops : Nat
  processLoops : Nat
  packet : Packet
  receiving : List ChanRef
deriving DecidableEq

/-- The packet that a pointer shows when it is read in world `w`. -/
def World.load {ε : Type} (w : World ε) : PacketRef → Packet
  | .processPacket => w.packet
  | .boxed p => p

/-- The methods of the external collaborators, which are not under src. -/
structure Env (ε : Type) where
  /-- The value of `me.Server.Listener.Addr().String()`. -/
  ListenAddr : String
  /-- The method `me.Server.IsConnectedTo(addr)`. -/
  IsConnectedTo : TLSServer ε → String → Bool
  /-- The method `me.Server.ConnectTo(addr)`. -/
  ConnectTo : TLSServer ε → String → TLSServer ε
  /-- The method `me.Server.NotifyNewPeer(me)`. -/
  NotifyNewPeer : TLSServer ε → Peer → TLSServer ε
  /-- The method `me.Server.ServerNode.RegisterNode(node)`. -/
  RegisterNode : TLSServer ε → ServerNetworkNode → TLSServer ε × Option String
  /-- The method `me.Server.KVStore.Set(key, data, flags, expiresAt)`. -/
  kvSet : ε → String → Bytes → Nat → Int → ε
  /-- The method `me.Server.KVStore.Get(key)`, returning value, flags and found. -/
  kvGet : ε → String → (Bytes × Nat × Bool) × ε
  /-- The method `me.Server.KVStore.Delete(key)`, returning found. -/
  kvDelete : ε → String → Bool × ε

/-- The result of running a piece of peer code: it completes in state `s` with result
`r`, or it panics on a nil dereference or failed type assertion having reached state `s`,
or it is parked in state `s` at a channel operation for which no partner is waiting. -/
inductive Outcome (σ ρ : Type) where
  | ok (s : σ) (r : ρ)
  | fault (s : σ)
  | blocked (s : σ)
deriving DecidableEq

/-- The state in which the code completed, panicked or was parked. -/
def Outcome.state {σ ρ : Type} : Outcome σ ρ → σ
  | .ok s _ => s
  | .fault s => s
  | .blocked s => s

/-- Whether the code panicked. -/
def Outcome.faulted {σ ρ : Type} : Outcome σ ρ → Bool
  | .ok _ _ => false
  | .fault _ => true
  | .blocked _ => false

/-- A Go `error` value: `none` is `nil`. -/
abbrev GoError := Option String

variable {ε : Type}

/-! ## Connection lifecycle -/

/-- The constructor `NewPeer`; `now` is the reading of `time.Now()`. -/
def NewPeer (address : String) (now : Int) : Peer :=
  { Address := address
    State := PeerStateDisconnected
    Connection := none
    HeartbeatTicker := none
    Writer := none
    Reader := none
    LastHeartbeat := now
    ServerNetworkNode := none
    Replies := GoMap.empty }

/-- The constructor `NewConnectingPeer`; a nil `connection` faults at
`connection.RemoteAddr()`. -/
def NewConnectingPeer (connection : Option Conn) (now : Int) : Option Peer :=
  match connection with
  | none => none
  | some c =>
    let inst := NewPeer c.RemoteAddr now
    let inst := { inst with Connection := some c }
    let inst := { inst with State := PeerStateHandshake }
    some inst

/-- The method `Disconnect`. -/
def Disconnect (w : World ε) : Outcome (World ε) Unit :=
  if w.peer.State = PeerStateConnected then
    -- me.State = PeerStateDisconnected
    let p := { w.peer with State := PeerStateDisconnected }
    -- if me.Connection!=nil { me.Connection.Close() }
    let p := { p with Connection := p.Connection.map Conn.Close }
    -- if me.HeartbeatTicker!=nil { me.HeartbeatTicker.Stop() }
    let p := { p with HeartbeatTicker := p.HeartbeatTicker.map Ticker.Stop }
    let w := { w with peer := p }
    -- me.Logger.Info(..., me.Connection.RemoteAddr())
    match p.Connection with
    | none => .fault w
    | some _ =>
      -- delete(me.Server.Connections, me.ServerNetworkNode.ID)
      match p.ServerNetworkNode with
      | none => .fault w
      | some n =>
        .ok { w with
              server := { w.server with Connections := w.server.Connections.delete n.ID }
              registryDeletes := w.registryDeletes ++ [n.ID] } ()
  else
    .ok w ()

/-- The method `Connect`; `dial` is the result of `tls.Dial` and `certs` the peer
certificates of the dialled connection's state. -/
def Connect (w : World ε) (dial : Except String Conn) (certs : List Certificate) :
    Outcome (World ε) GoError :=
  let w := { w with peer := { w.peer with State := PeerStateConnecting } }
  match dial with
  | .error err =>
    -- me.Logger.Error(...); me.Disconnect(); return err
    match Disconnect w with
    | .fault w => .fault w
    | .blocked w => .blocked w
    | .ok w _ => .ok w (some err)
  | .ok conn =>
    let w := { w with peer := { w.peer with Connection := some conn } }
    if certs.length = 0 then
      match Disconnect w with
      | .fault w => .fault w
      | .blocked w => .blocked w
      | .ok w _ => .ok w (some "Peer has no certificates")
    else
      .ok { w with peer := { w.peer with State := PeerStateHandshake } } none

/-- The method `SendPacket`; `err` is what `me.Writer.Encode(packet)` returns. -/
def SendPacket (w : World ε) (packet : Packet) (err : GoError) : Outcome (World ε) GoError :=
  match w.peer.Writer with
  | none => .fault w
  | some _ => .ok { w with sent := w.sent ++ [packet] } err

/-- The descriptor behind a registry entry. -/
def PeerRef.node (w : World ε) : PeerRef → Option ServerNetworkNode
  | .self => w.peer.ServerNetworkNode
  | .another n => n

/-- The address list built by the loop of `SendPeerlist`; `order` is the order in which
`range me.Server.Connections` visits the registry. -/
def peerlistOf (w : World ε) (order : List NodeId) : List String :=
  (w.server.Connections.range order).filterMap (fun e =>
    match PeerRef.node w e.2 with
    | some n => if n.ID ≠ w.server.ServerNode.ID then some n.HostAddr else none
    | none => none)

/-- The method `SendPeerlist`; `order` is the order in which the registry is visited. -/
def SendPeerlist (w : World ε) (order : List NodeId) (fresh : PacketID) (err : GoError) :
    Outcome (World ε) GoError :=
  let packet := NewPacket fresh .CMD_PEERLIST (.peers (peerlistOf w order))
  match SendPacket w packet err with
  | .fault w => .fault w
  | .blocked w => .blocked w
  | .ok w _ => .ok w none

/-- The method `SendDistribution`. -/
def SendDistribution (w : World ε) (fresh : PacketID) (err : GoError) :
    Outcome (World ε) GoError :=
  let packet := NewPacket fresh .CMD_DISTRIBUTION (.node w.server.ServerNode)
  match SendPacket w packet err with
  | .fault w => .fault w
  | .blocked w => .blocked w
  | .ok w _ => .ok w none

/-- What the network, the random source and the runtime give to one call of `Start`: the
result of the TLS handshake, the peer certificates of the connection state, for the two
packets sent their fresh ids and the encoder's results, and the order in which the loop of
`SendPeerlist` visits the registry. -/
structure StartInput where
  handshake : GoError
  certs : List Certificate
  freshDistribution : PacketID
  errDistribution : GoError
  freshPeerlist : PacketID
  errPeerlist : GoError
  rangeOrder : List NodeId
deriving DecidableEq

/-- The method `Start`. -/
def Start (w : World ε) (i : StartInput) : Outcome (World ε) GoError :=
  if w.peer.State ≠ PeerStateHandshake then
    .ok w (some "Handshake not ready")
  else
    -- err := me.Connection.Handshake()
    match w.peer.Connection with
    | none => .fault w
    | some c =>
      match i.handshake with
      | some _ =>
        match Disconnect w with
        | .fault w => .fault w
        | .blocked w => .blocked w
        | .ok w _ => .ok w (some "TLS Handshake Failed")
      | none =>
        if i.certs.length = 0 then
          match Disconnect w with
          | .fault w => .fault w
          | .blocked w => .blocked w
          | .ok w _ => .ok w (some "Peer sent no certificates")
        else
          let w := { w with peer := { w.peer with State := PeerStateConnected } }
          let w := { w with peer := { w.peer with Reader := some ⟨c.RemoteAddr⟩ } }
          let w := { w with peer := { w.peer with Writer := some ⟨c.RemoteAddr⟩ } }
          -- go me.heartbeat()
          let w := { w with heartbeatLoops := w.heartbeatLoops + 1 }
          match SendDistribution w i.freshDistribution i.errDistribution with
          | .fault w => .fault w
          | .blocked w => .blocked w
          | .ok w _ =>
            match SendPeerlist w i.rangeOrder i.freshPeerlist i.errPeerlist with
            | .fault w => .fault w
            | .blocked w => .blocked w
            | .ok w _ =>
              -- go me.process()
              .ok { w with processLoops := w.processLoops + 1 } none

/-! ## Failure detector -/

/-- How one iteration of a loop ends: the loop goes round again, or the function returns. -/
inductive LoopCtl where
  | again
  | returned
deriving DecidableEq

/-- The first statement of `heartbeat`: the ticker is created. -/
def heartbeatInit (w : World ε) : World ε :=
  { w with peer := { w.peer with HeartbeatTicker := some ⟨0⟩ } }

/-- The "Check For Defib" statement of the heartbeat loop; `now` is `time.Now()`. -/
def defibCheck (w : World ε) (now : Int) : Outcome (World ε) Unit :=
  if Time.After now (Time.Add w.peer.LastHeartbeat (5 * Second)) then
    -- me.Logger.Warn(..., me.Connection.RemoteAddr())
    match w.peer.Connection with
    | none => .fault w
    | some _ => .ok { w with peer := { w.peer with State := PeerStateDefib } } ()
  else
    .ok w ()

/-- What the clock, the random source and the encoder give to one heartbeat tick: the two
readings of `time.Now()`, and the id and the encoder's result for the heartbeat packet. -/
structure TickInput where
  now : Int
  nowDefib : Int
  fresh : PacketID
  sendErr : GoError
deriving DecidableEq

/-- The `switch me.State` of the heartbeat loop. -/
def heartbeatSwitch (w : World ε) (i : TickInput) : Outcome (World ε) LoopCtl :=
  if w.peer.State = PeerStateConnected then
    match SendPacket w (NewPacket i.fresh .CMD_HEARTBEAT .nil) i.sendErr with
    | .fault w => .fault w
    | .blocked w => .blocked w
    | .ok w none => .ok w .again
    | .ok w (some _) =>
      -- me.Logger.Error(..., me.Connection.RemoteAddr())
      match w.peer.Connection with
      | none => .fault w
      | some _ =>
        match Disconnect w with
        | .fault w => .fault w
        | .blocked w => .blocked w
        | .ok w _ => .ok w .returned
  else if w.peer.State = PeerStateDefib then
    if Time.After i.nowDefib (Time.Add w.peer.LastHeartbeat (10 * Second)) then
      -- me.Logger.Warn(..., me.Connection.RemoteAddr())
      match w.peer.Connection with
      | none => .fault w
      | some _ =>
        match Disconnect w with
        | .fault w => .fault w
        | .blocked w => .blocked w
        | .ok w _ => .ok w .returned
    else
      .ok w .again
  else
    .ok w .again

/-- One iteration of the heartbeat loop, entered when the ticker fires. -/
def heartbeatTick (w : World ε) (i : TickInput) : Outcome (World ε) LoopCtl :=
  match defibCheck w i.now with
  | .fault w => .fault w
  | .blocked w => .blocked w
  | .ok w _ => heartbeatSwitch w i

/-! ## Reply correlator -/

/-- The method `handleReply`; `packet` is the pointer it is called with. The send
`chn <- packet` hands over the pointer, and completes when a caller is waiting in a receive
on `chn`; when none is, the receive loop is parked in the send. -/
def handleReply (w : World ε) (packet : PacketRef) : Outcome (World ε) Unit :=
  match w.peer.Replies.find (w.load packet).RequestID with
  | some chn =>
    -- delete(me.Replies, packet.RequestID)
    let w := { w with peer := { w.peer with
      Replies := w.peer.Replies.delete (w.load packet).RequestID } }
    -- chn <- packet
    if chn ∈ w.receiving then
      .ok { w with
            receiving := w.receiving.erase chn
            delivered := w.delivered ++ [(chn, packet)] } ()
    else
      .blocked w
  | none =>
    -- me.Logger.Warn(..., me.Connection.RemoteAddr(), packet.RequestID)
    match w.peer.Connection with
    | none => .fault w
    | some _ => .ok w ()

/-- The method `SendPacketWaitReply`, first two statements: a new channel is stored under
the packet's ID, and the packet is sent. The `timeout` argument is not used by the code. -/
def SendPacketWaitReply_send (w : World ε) (packet : Packet) (err : GoError) :
    Outcome (World ε) Unit :=
  -- me.Replies[packet.ID] = make(chan(*packets.Packet))
  let chn := w.nextChan
  let w := { w with nextChan := chn + 1 }
  let w := { w with peer := { w.peer with Replies := w.peer.Replies.insert packet.ID chn } }
  -- me.SendPacket(packet)
  match SendPacket w packet err with
  | .fault w => .fault w
  | .blocked w => .blocked w
  | .ok w _ => .ok w ()

/-- The method `SendPacketWaitReply`, entering the receive `<- me.Replies[packet.ID]`: the
map is read again, and the caller waits on the channel found, which is the result. A key
that is gone gives the nil channel, on which the caller is parked for good. -/
def SendPacketWaitReply_receive (w : World ε) (packet : Packet) :
    Outcome (World ε) ChanRef :=
  match w.peer.Replies.find packet.ID with
  | none => .blocked w
  | some chn => .ok { w with receiving := w.receiving ++ [chn] } chn

/-- The method `SendPacketWaitReply`, from the moment a send on `chn` has completed: the
caller takes the pointer that was sent, logs it and returns it with a nil error. Without
such a send the caller is still parked. -/
def SendPacketWaitReply_return (w : World ε) (chn : ChanRef) :
    Outcome (World ε) (PacketRef × GoError) :=
  match w.delivered.find? (fun d => decide (d.1 = chn)) with
  | none => .blocked w
  | some d =>
    -- me.Logger.Debug(..., me.Connection.RemoteAddr(), reply.ID, packet.ID)
    match w.peer.Connection with
    | none => .fault w
    | some _ => .ok w (d.2, none)

/-! ## Key-value handlers -/

/-- The method `handleKVStoreSet`. -/
def handleKVStoreSet (env : Env ε) (w : World ε) (packet : KVStorePacket) (request : Packet)
    (fresh : PacketID) (err : GoError) : Outcome (World ε) Unit :=
  -- me.Logger.Debug(..., me.Connection.RemoteAddr(), packet.Key, packet.Data)
  match w.peer.Connection with
  | none => .fault w
  | some _ =>
    let w := { w with server := { w.server with
      ext := env.kvSet w.server.ext packet.Key packet.Data packet.Flags packet.ExpiresAt } }
    let response := NewResponsePacket fresh .CMD_KVSTORE_ACK request.ID (.str packet.Key)
    match SendPacket w response err with
    | .fault w => .fault w
    | .blocked w => .blocked w
    | .ok w _ => .ok w ()

/-- The method `handleKVStoreGet`. -/
def handleKVStoreGet (env : Env ε) (w : World ε) (packet : KVStorePacket) (request : Packet)
    (fresh : PacketID) (err : GoError) : Outcome (World ε) Unit :=
  match w.peer.Connection with
  | none => .fault w
  | some _ =>
    let r := env.kvGet w.server.ext packet.Key
    let value := r.1.1
    let flags := r.1.2.1
    let found := r.1.2.2
    let w := { w with server := { w.server with ext := r.2 } }
    let response :=
      if found then
        let payload : KVStorePacket :=
          { Command := .CMD_KVSTORE_GET, Key := packet.Key, Data := value, Flags := flags,
            ExpiresAt := 0 }
        NewResponsePacket fresh .CMD_KVSTORE_ACK request.ID (.kv payload)
      else
        NewResponsePacket fresh .CMD_KVSTORE_NOT_FOUND request.ID (.str packet.Key)
    match SendPacket w response err with
    | .fault w => .fault w
    | .blocked w => .blocked w
    | .ok w _ => .ok w ()

/-- The method `handleKVStoreDelete`. -/
def handleKVStoreDelete (env : Env ε) (w : World ε) (packet : KVStorePacket)
    (request : Packet) (fresh : PacketID) (err : GoError) : Outcome (World ε) Unit :=
  match w.peer.Connection with
  | none => .fault w
  | some _ =>
    let r := env.kvDelete w.server.ext packet.Key
    let found := r.1
    let w := { w with server := { w.server with ext := r.2 } }
    let response :=
      if found then
        NewResponsePacket fresh .CMD_KVSTORE_ACK request.ID (.str packet.Key)
      else
        NewResponsePacket fresh .CMD_KVSTORE_NOT_FOUND request.ID (.str packet.Key)
    match SendPacket w response err with
    | .fault w => .fault w
    | .blocked w => .blocked w
    | .ok w _ => .ok w ()

/-- The method `handleKVStorePacket`. -/
def handleKVStorePacket (env : Env ε) (w : World ε) (packet : Packet) (fresh : PacketID)
    (err : GoError) : Outcome (World ε) Unit :=
  -- kvpacket := packet.Payload.(packets.KVStorePacket)
  match packet.Payload with
  | .kv kvpacket =>
    match kvpacket.Command with
    | .CMD_KVSTORE_SET => handleKVStoreSet env w kvpacket packet fresh err
    | .CMD_KVSTORE_GET => handleKVStoreGet env w kvpacket packet fresh err
    | .CMD_KVSTORE_DELETE => handleKVStoreDelete env w kvpacket packet fresh err
    | .other _ => .ok w ()
  | _ => .fault w

/-! ## Receive loop -/

/-- The `for _, k := range peers` loop of the `CMD_PEERLIST` branch. -/
def peerlistLoop (env : Env ε) (w : World ε) : List String → World ε
  | [] => w
  | k :: rest =>
    if env.ListenAddr = k then
      peerlistLoop env w rest
    else if !env.IsConnectedTo w.server k then
      -- me.Server.ConnectTo(k)
      peerlistLoop env
        { w with server := env.ConnectTo w.server k, connectCalls := w.connectCalls ++ [k] }
        rest
    else
      peerlistLoop env w rest

/-- What the clock, the random source and the encoder give to the handling of one packet. -/
structure RecvInput where
  now : Int
  fresh : PacketID
  sendErr : GoError
deriving DecidableEq

/-- The loop body of `process` after `me.Reader.Decode(&packet)` has returned nil:
`packet` is what the variable `packet` holds now that `Decode` has written into it, and the
`switch (packet.Command)` follows. -/
def dispatch (env : Env ε) (w : World ε) (packet : Packet) (i : RecvInput) :
    Outcome (World ε) Unit :=
  let w := { w with packet := packet }
  match packet.Command with
  | .CMD_HEARTBEAT =>
    .ok { w with peer := { w.peer with LastHeartbeat := i.now } } ()
  | .CMD_DISTRIBUTION =>
    match w.peer.Connection with
    | none => .fault w
    | some _ =>
      -- servernetworknode := packet.Payload.(consistenthash.ServerNetworkNode)
      match packet.Payload with
      | .node n =>
        let w := { w with peer := { w.peer with ServerNetworkNode := some n } }
        let w := { w with server := { w.server with
          Connections := w.server.Connections.insert n.ID .self } }
        let w := { w with server := (env.RegisterNode w.server n).1 }
        .ok { w with server := env.NotifyNewPeer w.server w.peer } ()
      | _ => .fault w
  | .CMD_KVSTORE =>
    match w.peer.Connection with
    | none => .fault w
    | some _ => handleKVStorePacket env w packet i.fresh i.sendErr
  | .CMD_KVSTORE_ACK =>
    match w.peer.Connection with
    | none => .fault w
    | some _ => handleReply w .processPacket
  | .CMD_KVSTORE_NOT_FOUND =>
    match w.peer.Connection with
    | none => .fault w
    | some _ => handleReply w .processPacket
  | .CMD_PEERLIST =>
    -- peers := packet.Payload.([]string)
    match packet.Payload with
    | .peers peers =>
      match w.peer.Connection with
      | none => .fault w
      | some _ => .ok (peerlistLoop env w peers) ()
    | _ => .fault w
  | .other _ =>
    match w.peer.Connection with
    | none => .fault w
    | some _ => .ok w ()

/-- One iteration of the loop of `process`; `input` is the result of
`me.Reader.Decode(&packet)`: the error, or what the variable `packet` holds after the
decoder has written into it. A decode error leaves the loop, and `process` ends with
`me.Disconnect()`. -/
def processStep (env : Env ε) (w : World ε) (input : Except String Packet) (i : RecvInput) :
    Outcome (World ε) LoopCtl :=
  match w.peer.Reader with
  | none => .fault w
  | some _ =>
    match input with
    | .error _ =>
      match w.peer.Connection with
      | none => .fault w
      | some _ =>
        match Disconnect w with
        | .fault w => .fault w
        | .blocked w => .blocked w
        | .ok w _ => .ok w .returned
    | .ok packet =>
      match dispatch env w packet i with
      | .fault w => .fault w
      | .blocked w => .blocked w
      | .ok w _ => .ok w .again

/-! ## Sequences of operations -/

/-- The operations on a peer. -/
inductive Op where
  | newPeer (address : String) (now : Int)
  | newConnectingPeer (connection : Option Conn) (now : Int)
  | connect (dial : Except String Conn) (certs : List Certificate)
  | start (i : StartInput)
  | disconnect
  | heartbeatInit
  | tick (i : TickInput)
  | receive (input : Except String Packet) (i : RecvInput)

/-- The state after one operation (the state at the panic, if it panics). The two
constructors put a new peer in the place of the old one. -/
def Op.apply (env : Env ε) (w : World ε) : Op → World ε
  | .newPeer address now => { w with peer := NewPeer address now }
  | .newConnectingPeer connection now =>
    match NewConnectingPeer connection now with
    | some p => { w with peer := p }
    | none => w
  | .connect dial certs => (Connect w dial certs).state
  | .start i => (Start w i).state
  | .disconnect => (Disconnect w).state
  | .heartbeatInit => Trinity.heartbeatInit w
  | .tick i => (heartbeatTick w i).state
  | .receive input i => (processStep env w input i).state

/-- The state after a sequence of operations. -/
def run (env : Env ε) (w : World ε) : List Op → World ε
  | [] => w
  | op :: rest => run env (Op.apply env w op) rest

/-! ## Measures and specification functions -/

/-- The number of `Close` calls made on the peer's transport. -/
def closeCount (w : World ε) : Nat :=
  match w.peer.Connection with
  | some c => c.closeCalls
  | none => 0

/-- The dials the specification asks for when a peer list is received: the addresses of
the list, in order, that differ from the own listen address and that the server reports as
not connected at the moment the address is examined (`srv` is the server at that moment;
a dial may change it). -/
def expectedDials (env : Env ε) (srv : TLSServer ε) : List String → List String
  | [] => []
  | k :: rest =>
    if k ≠ env.ListenAddr ∧ env.IsConnectedTo srv k = false then
      k :: expectedDials env (env.ConnectTo srv k) rest
    else
      expectedDials env srv rest

/-! ## Sample inputs -/

/-- A transport to a remote node, not yet closed. -/
def sampleConn : Conn := { RemoteAddr := "10.0.0.2:13531", closeCalls := 0 }

/-- A server whose registry holds the modelled peer under node id 7. -/
def sampleServer : TLSServer Unit :=
  { Connections := ⟨[(7, .self)]⟩
    ServerNode := { ID := 1, HostAddr := "10.0.0.1:13531" }
    ext := () }

/-- A started peer that has learned the descriptor of its remote node. -/
def samplePeer : Peer :=
  { Address := "10.0.0.2:13531"
    State := PeerStateConnected
    Connection := some sampleConn
    HeartbeatTicker := some ⟨0⟩
    Writer := some ⟨"10.0.0.2:13531"⟩
    Reader := some ⟨"10.0.0.2:13531"⟩
    LastHeartbeat := 0
    ServerNetworkNode := some { ID := 7, HostAddr := "10.0.0.2:13531" }
    Replies := GoMap.empty }

/-- The sample peer on the sample server, with nothing recorded yet. -/
def sampleWorld : World Unit :=
  { peer := samplePeer
    server := sampleServer
    sent := []
    delivered := []
    nextChan := 0
    registryDeletes := []
    connectCalls := []
    heartbeatLoops := 1
    processLoops := 1
    packet := NewPacket 0 (.other 0) .nil
    receiving := [] }

/-- A server with an empty registry. -/
def emptyServer : TLSServer Unit :=
  { Connections := GoMap.empty
    ServerNode := { ID := 1, HostAddr := "10.0.0.1:13531" }
    ext := () }

/-- A world in which no peer has been started yet. -/
def freshWorld : World Unit :=
  { peer := NewPeer "10.0.0.2:13531" 0
    server := emptyServer
    sent := []
    delivered := []
    nextChan := 0
    registryDeletes := []
    connectCalls := []
    heartbeatLoops := 0
    processLoops := 0
    packet := NewPacket 0 (.other 0) .nil
    receiving := [] }

/-- Collaborators that do nothing: nobody is connected, dialling changes nothing, the
store is empty. -/
def idleEnv : Env Unit :=
  { ListenAddr := "10.0.0.1:13531"
    IsConnectedTo := fun _ _ => false
    ConnectTo := fun s _ => s
    NotifyNewPeer := fun s _ => s
    RegisterNode := fun s _ => (s, none)
    kvSet := fun s _ _ _ _ => s
    kvGet := fun s _ => (([], 0, false), s)
    kvDelete := fun s _ => (false, s) }

/-- A handshake that succeeds and shows one certificate. -/
def goodStart : StartInput :=
  { handshake := none
    certs := [⟨"node-2"⟩]
    freshDistribution := 100
    errDistribution := none
    freshPeerlist := 101
    errPeerlist := none
    rangeOrder := [] }

/-- An accepted connection on which `Start` succeeded: the peer is Connected and has not
yet received the descriptor of the remote node. -/
def startedWorld : World Unit :=
  run idleEnv freshWorld [.newConnectingPeer (some sampleConn) 0, .start goodStart]

/-- The sample peer in state Defib: registered under node id 7, last heard of at time 0. -/
def defibWorld : World Unit :=
  { sampleWorld with peer := { samplePeer with State := PeerStateDefib } }

/-- A tick eleven seconds after the last heartbeat. -/
def lateTick : TickInput :=
  { now := 11 * Second, nowDefib := 11 * Second, fresh := 5, sendErr := none }

/-- A tick exactly five seconds after the last heartbeat. -/
def fiveSecondTick : TickInput :=
  { now := 5 * Second, nowDefib := 5 * Second, fresh := 9, sendErr := none }

/-- An accepted connection whose peer has not been started yet. -/
def acceptedWorld : World Unit :=
  run idleEnv freshWorld [.newConnectingPeer (some sampleConn) 0]

/-- A handshake that returns an error. -/
def failedHandshake : StartInput :=
  { goodStart with handshake := some "remote error: bad certificate" }

/-- A handshake after which the remote side shows no certificate. -/
def noCertificates : StartInput :=
  { goodStart with certs := [] }

/-- A Get request for the key "missing", with request id 42. -/
def missingGet : KVStorePacket :=
  { Command := .CMD_KVSTORE_GET, Key := "missing", Data := [], Flags := 0, ExpiresAt := 0 }

/-- The packet that carries `missingGet`. -/
def missingRequest : Packet :=
  { Command := .CMD_KVSTORE, ID := 42, RequestID := 0, Payload := .kv missingGet }

/-- A store that keeps value and flags per key and forgets the expiry. -/
def storeEnv : Env (GoMap String (Bytes × Nat)) :=
  { ListenAddr := "10.0.0.1:13531"
    IsConnectedTo := fun _ _ => false
    ConnectTo := fun s _ => s
    NotifyNewPeer := fun s _ => s
    RegisterNode := fun s _ => (s, none)
    kvSet := fun s k v f _ => s.insert k (v, f)
    kvGet := fun s k =>
      match s.find k with
      | some x => ((x.1, x.2, true), s)
      | none => (([], 0, false), s)
    kvDelete := fun s k => ((s.find k).isSome, s.delete k) }

/-- The sample peer on a server with an empty store. -/
def storeWorld : World (GoMap String (Bytes × Nat)) :=
  { peer := samplePeer
    server :=
      { Connections := ⟨[(7, .self)]⟩
        ServerNode := { ID := 1, HostAddr := "10.0.0.1:13531" }
        ext := GoMap.empty }
    sent := []
    delivered := []
    nextChan := 0
    registryDeletes := []
    connectCalls := []
    heartbeatLoops := 1
    processLoops := 1
    packet := NewPacket 0 (.other 0) .nil
    receiving := [] }

/-- A Set request for key "a" with value "1", with request id 10. -/
def setA : KVStorePacket :=
  { Command := .CMD_KVSTORE_SET, Key := "a", Data := [49], Flags := 0, ExpiresAt := 0 }

/-- A Get request for key "a". -/
def getA : KVStorePacket :=
  { Command := .CMD_KVSTORE_GET, Key := "a", Data := [], Flags := 0, ExpiresAt := 0 }

/-- A reply that answers the request with the given id. -/
def replyTo (rid : PacketID) : Packet :=
  { Command := .CMD_KVSTORE_ACK, ID := 100 + rid, RequestID := rid, Payload := .str "a" }

/-- A request with id 9. -/
def request9 : Packet :=
  { Command := .CMD_KVSTORE, ID := 9, RequestID := 0, Payload := .kv getA }

/-- The sample peer after a caller of `SendPacketWaitReply` has stored its channel under
id 9 and sent request 9. -/
def callerSent : World Unit :=
  (SendPacketWaitReply_send sampleWorld request9 none).state

/-- The caller of `callerSent` waits in its receive. -/
def callerWaiting : World Unit :=
  (SendPacketWaitReply_receive callerSent request9).state

/-- The receive loop has decoded and handled the reply to request 9 while the caller
waits. -/
def replyHandled : World Unit :=
  (processStep idleEnv callerWaiting (.ok (replyTo 9)) ⟨0, 0, none⟩).state

/-- The receive loop has gone round once more and decoded a reply to the unknown request 6,
before the caller has looked at its reply. -/
def nextDecoded : World Unit :=
  (processStep idleEnv replyHandled (.ok (replyTo 6)) ⟨0, 0, none⟩).state

/-- The receive loop has decoded and handled the reply to request 9 before the caller of
`callerSent` has entered its receive. -/
def replyTooEarly : World Unit :=
  (processStep idleEnv callerSent (.ok (replyTo 9)) ⟨0, 0, none⟩).state

/-- Collaborators of node A at 10.0.0.1: the server keeps the addresses it is connected to
or has dialled. -/
def dialEnv : Env (List String) :=
  { ListenAddr := "10.0.0.1:13531"
    IsConnectedTo := fun s k => s.ext.contains k
    ConnectTo := fun s k => { s with ext := s.ext ++ [k] }
    NotifyNewPeer := fun s _ => s
    RegisterNode := fun s _ => (s, none)
    kvSet := fun s _ _ _ _ => s
    kvGet := fun s _ => (([], 0, false), s)
    kvDelete := fun s _ => (false, s) }

/-- Node A, connected only to B at 10.0.0.2. -/
def gossipWorld : World (List String) :=
  { peer := samplePeer
    server :=
      { Connections := ⟨[(7, .self)]⟩
        ServerNode := { ID := 1, HostAddr := "10.0.0.1:13531" }
        ext := ["10.0.0.2:13531"] }
    sent := []
    delivered := []
    nextChan := 0
    registryDeletes := []
    connectCalls := []
    heartbeatLoops := 1
    processLoops := 1
    packet := NewPacket 0 (.other 0) .nil
    receiving := [] }

/-- A peer list from B: A itself, C, B, and C once more. -/
def gossipPacket : Packet :=
  { Command := .CMD_PEERLIST, ID := 30, RequestID := 0,
    Payload := .peers ["10.0.0.1:13531", "10.0.0.3:13531", "10.0.0.2:13531", "10.0.0.3:13531"] }

/-! ## Facts about Go maps -/

namespace GoMap

variable {κ ν : Type} [DecidableEq κ]

theorem lookupIn_removeFrom_self (l : List (κ × ν)) (k : κ) :
    lookupIn (removeFrom l k) k = none := by
  induction l with
  | nil => rfl
  | cons e l ih =>
    by_cases h : e.1 = k
    · simp only [removeFrom, if_pos h, ih]
    · simp only [removeFrom, if_neg h, lookupIn, ih]

theorem lookupIn_removeFrom_ne (l : List (κ × ν)) {k j : κ} (h : j ≠ k) :
    lookupIn (removeFrom l k) j = lookupIn l j := by
  induction l with
  | nil => rfl
  | cons e l ih =>
    by_cases hk : e.1 = k
    · have hj : ¬ e.1 = j := fun hj => h (hj.symm.trans hk)
      simp only [removeFrom, if_pos hk, lookupIn, if_neg hj, ih]
    · by_cases hj : e.1 = j
      · simp only [removeFrom, if_neg hk, lookupIn, if_pos hj]
      · simp only [removeFrom, if_neg hk, lookupIn, if_neg hj, ih]

theorem removeFrom_of_lookupIn_none (l : List (κ × ν)) {k : κ} (h : lookupIn l k = none) :
    removeFrom l k = l := by
  induction l with
  | nil => rfl
  | cons e l ih =>
    by_cases hk : e.1 = k
    · simp [lookupIn, if_pos hk] at h
    · simp only [lookupIn, if_neg hk] at h
      simp only [removeFrom, if_neg hk, ih h]

theorem lookupIn_append (l l2 : List (κ × ν)) (k : κ) :
    lookupIn (l ++ l2) k = (lookupIn l k).orElse (fun _ => lookupIn l2 k) := by
  induction l with
  | nil => rfl
  | cons e l ih =>
    by_cases hk : e.1 = k
    · simp only [List.cons_append, lookupIn, if_pos hk]
      rfl
    · simp only [List.cons_append, lookupIn, if_neg hk]
      exact ih

theorem find_delete_self (m : GoMap κ ν) (k : κ) : (m.delete k).find k = none :=
  lookupIn_removeFrom_self m.entries k

theorem find_delete_ne (m : GoMap κ ν) {k j : κ} (h : j ≠ k) :
    (m.delete k).find j = m.find j :=
  lookupIn_removeFrom_ne m.entries h

theorem delete_of_find_none (m : GoMap κ ν) {k : κ} (h : m.find k = none) :
    m.delete k = m := by
  cases m with
  | mk l => simp only [delete, removeFrom_of_lookupIn_none l h]

theorem find_insert_self (m : GoMap κ ν) (k : κ) (v : ν) : (m.insert k v).find k = some v := by
  simp only [find, insert, delete, lookupIn_append, lookupIn_removeFrom_self, lookupIn]
  simp

theorem find_insert_ne (m : GoMap κ ν) {k j : κ} (v : ν) (h : j ≠ k) :
    (m.insert k v).find j = m.find j := by
  have hk : ¬ k = j := fun e => h e.symm
  simp only [find, insert, delete, lookupIn_append, lookupIn_removeFrom_ne _ h, lookupIn,
    if_neg hk]
  cases lookupIn m.entries j <;> rfl

end GoMap

/-! ## Facts about `Disconnect` -/

theorem Disconnect_of_not_connected (w : World ε) (h : w.peer.State ≠ PeerStateConnected) :
    Disconnect w = .ok w () := by
  simp [Disconnect, h]

theorem Disconnect_state_not_connected (w : World ε) :
    (Disconnect w).state.peer.State ≠ PeerStateConnected := by
  by_cases h : w.peer.State = PeerStateConnected
  · unfold Disconnect
    rw [if_pos h]
    cases hc : w.peer.Connection <;> cases hn : w.peer.ServerNetworkNode <;>
      simp [Outcome.state, PeerStateDisconnected, PeerStateConnected, hc, hn]
  · rw [Disconnect_of_not_connected w h]
    exact h

theorem Disconnect_closeCount (w : World ε) :
    closeCount (Disconnect w).state ≤ closeCount w + 1 := by
  by_cases h : w.peer.State = PeerStateConnected
  · unfold Disconnect
    rw [if_pos h]
    cases hc : w.peer.Connection <;> cases hn : w.peer.ServerNetworkNode <;>
      simp [Outcome.state, closeCount, Conn.Close, hc, hn]
  · rw [Disconnect_of_not_connected w h]
    simp [Outcome.state]

theorem Disconnect_registryDeletes (w : World ε) :
    (Disconnect w).state.registryDeletes.length ≤ w.registryDeletes.length + 1 := by
  by_cases h : w.peer.State = PeerStateConnected
  · unfold Disconnect
    rw [if_pos h]
    cases hc : w.peer.Connection <;> cases hn : w.peer.ServerNetworkNode <;>
      simp [Outcome.state, hc, hn]
  · rw [Disconnect_of_not_connected w h]
    simp [Outcome.state]

theorem Disconnect_faults_without_descriptor (w : World ε)
    (hs : w.peer.State = PeerStateConnected) (hn : w.peer.ServerNetworkNode = none) :
    (Disconnect w).faulted = true := by
  unfold Disconnect
  rw [if_pos hs]
  cases hc : w.peer.Connection <;> simp [Outcome.faulted, hc, hn]

/-! ## Disconnect: idempotence (C7), missing descriptor (C6) -/

/-- C7: `Disconnect` is idempotent. Whatever the first call did (completed or panicked), a
second call on the state it left completes and changes nothing, so peer and registry after
two calls are those after one call; over the two calls at most one `delete` is made on the
registry and at most one `Close` on the transport; and when the state is not Connected,
`Disconnect` changes nothing at all. -/
theorem Disconnect_idempotent (w : World ε) :
    Disconnect (Disconnect w).state = .ok (Disconnect w).state () ∧
    (Disconnect (Disconnect w).state).state.peer = (Disconnect w).state.peer ∧
    (Disconnect (Disconnect w).state).state.server = (Disconnect w).state.server ∧
    (Disconnect (Disconnect w).state).state.registryDeletes.length
      ≤ w.registryDeletes.length + 1 ∧
    closeCount (Disconnect (Disconnect w).state).state ≤ closeCount w + 1 ∧
    (w.peer.State ≠ PeerStateConnected → Disconnect w = .ok w ()) := by
  have h := Disconnect_of_not_connected _ (Disconnect_state_not_connected w)
  refine ⟨h, ?_, ?_, ?_, ?_, Disconnect_of_not_connected w⟩
  · rw [h]; rfl
  · rw [h]; rfl
  · rw [h]; exact Disconnect_registryDeletes w
  · rw [h]; exact Disconnect_closeCount w

/-- The instance of C7 on a peer that was never started: its state is Disconnected, and
`Disconnect` leaves the world as it is. -/
theorem Disconnect_idempotent_witness :
    freshWorld.peer.State ≠ PeerStateConnected ∧
    Disconnect (Disconnect sampleWorld).state = .ok (Disconnect sampleWorld).state () ∧
    Disconnect freshWorld = .ok freshWorld () :=
  ⟨by decide, (Disconnect_idempotent sampleWorld).1,
    (Disconnect_idempotent freshWorld).2.2.2.2.2 (by decide)⟩

/-- C6: on a Connected peer whose descriptor was never learned, `Disconnect` does not
complete: it sets the state to Disconnected, closes the transport and then panics on
`me.ServerNetworkNode.ID`, before the registry is touched. The receive loop runs into this
when the remote side closes the connection before its `CMD_DISTRIBUTION` packet arrives. -/
theorem Disconnect_before_distribution_faults :
    startedWorld.peer.State = PeerStateConnected ∧
    startedWorld.peer.ServerNetworkNode = none ∧
    (Disconnect startedWorld).faulted = true ∧
    (Disconnect startedWorld).state.peer.State = PeerStateDisconnected ∧
    closeCount (Disconnect startedWorld).state = 1 ∧
    (Disconnect startedWorld).state.server = startedWorld.server ∧
    (processStep idleEnv startedWorld (.error "EOF") ⟨0, 0, none⟩).faulted = true := by
  decide

/-! ## Failure detector: the ten-second rule (C1), the five-second rule (C9) -/

theorem heartbeatTick_defib_after_ten (w : World ε) (i : TickInput) (c : Conn)
    (hs : w.peer.State = PeerStateDefib) (hc : w.peer.Connection = some c)
    (h1 : w.peer.LastHeartbeat + 10 * Second < i.now)
    (h2 : w.peer.LastHeartbeat + 10 * Second < i.nowDefib) :
    heartbeatTick w i = .ok w .returned := by
  obtain ⟨⟨addr, st, conn, tk, wr, rd, lh, snn, reps⟩, srv, snt, dl, nc, rdl, cc, hl, pl, pk, rcv⟩ := w
  simp only at hs hc h1 h2
  subst hs hc
  have hpos : (0 : Int) < Second := by decide
  have h5 : lh + 5 * Second < i.now := by omega
  have hne : ¬ PeerStateDefib = PeerStateConnected := by decide
  simp [heartbeatTick, defibCheck, heartbeatSwitch, Time.After, Time.Add, h5, h2, hne,
    Disconnect]

/-- C1: a peer in state Defib, registered under node id 7 and silent for eleven seconds: the
tick ends the heartbeat loop, but the call of `Disconnect` does nothing because the state is
not Connected, so the peer stays in state Defib, its transport stays open and its node id
stays in the registry. -/
theorem heartbeatTick_defib_dead_not_disconnected :
    defibWorld.peer.State = PeerStateDefib ∧
    defibWorld.peer.LastHeartbeat + 10 * Second < lateTick.now ∧
    heartbeatTick defibWorld lateTick = .ok defibWorld .returned ∧
    (heartbeatTick defibWorld lateTick).state.peer.State ≠ PeerStateDisconnected ∧
    (heartbeatTick defibWorld lateTick).state.server.Connections.find 7 = some .self ∧
    closeCount (heartbeatTick defibWorld lateTick).state = 0 := by
  decide

/-- C9, the claim as written fails at exactly five seconds: the peer is Connected, the tick
comes five seconds after the last heartbeat, the silence check leaves the state Connected
and the tick sends a heartbeat packet. -/
theorem defibCheck_at_five_seconds :
    fiveSecondTick.now - sampleWorld.peer.LastHeartbeat ≥ 5 * Second ∧
    (defibCheck sampleWorld fiveSecondTick.now).state.peer.State = PeerStateConnected ∧
    (defibCheck sampleWorld fiveSecondTick.now).state.peer.State ≠ PeerStateDefib ∧
    (heartbeatTick sampleWorld fiveSecondTick).state.sent
      = sampleWorld.sent ++ [NewPacket 9 .CMD_HEARTBEAT .nil] := by
  decide

/-- C9, amended: on a peer with a transport, whatever its state, a tick at time `now` with
`now - LastHeartbeat` strictly above five seconds makes the silence check set the state to
Defib, and the tick sends no packet; a tick with `now - LastHeartbeat` at most five seconds
(exactly five included) leaves the world unchanged in the silence check. -/
theorem defibCheck_threshold (w : World ε) (i : TickInput) :
    (w.peer.Connection ≠ none → i.now - w.peer.LastHeartbeat > 5 * Second →
      (defibCheck w i.now).faulted = false ∧
      (defibCheck w i.now).state.peer.State = PeerStateDefib ∧
      (heartbeatTick w i).faulted = false ∧
      (heartbeatTick w i).state.peer.State = PeerStateDefib ∧
      (heartbeatTick w i).state.sent = w.sent) ∧
    (i.now - w.peer.LastHeartbeat ≤ 5 * Second → defibCheck w i.now = .ok w ()) := by
  obtain ⟨⟨addr, st, conn, tk, wr, rd, lh, snn, reps⟩, srv, snt, dl, nc, rdl, cc, hl, pl, pk, rcv⟩ := w
  have hne : ¬ PeerStateDefib = PeerStateConnected := by decide
  constructor
  · intro hc hgt
    obtain ⟨c, hc⟩ := Option.ne_none_iff_exists'.1 hc
    simp only at hc hgt
    subst hc
    have h5 : lh + 5 * Second < i.now := by omega
    by_cases h10 : lh + 10 * Second < i.nowDefib
    · simp [heartbeatTick, defibCheck, heartbeatSwitch, Time.After, Time.Add, h5, h10, hne,
        Disconnect, Outcome.state, Outcome.faulted]
    · simp [heartbeatTick, defibCheck, heartbeatSwitch, Time.After, Time.Add, h5, h10, hne,
        Outcome.state, Outcome.faulted]
  · intro hle
    simp only at hle
    have h5 : ¬ lh + 5 * Second < i.now := by omega
    simp [defibCheck, Time.After, Time.Add, h5]

/-- The instance of C9 as amended on the Connected sample peer: six seconds of silence
give Defib without a packet, five seconds leave the world as it is. -/
theorem defibCheck_threshold_witness :
    (sampleWorld.peer.Connection ≠ none ∧
      (6 * Second : Int) - sampleWorld.peer.LastHeartbeat > 5 * Second ∧
      (heartbeatTick sampleWorld { fiveSecondTick with now := 6 * Second }).state.peer.State
        = PeerStateDefib ∧
      (heartbeatTick sampleWorld { fiveSecondTick with now := 6 * Second }).state.sent
        = sampleWorld.sent) ∧
    (fiveSecondTick.now - sampleWorld.peer.LastHeartbeat ≤ 5 * Second ∧
      defibCheck sampleWorld fiveSecondTick.now = .ok sampleWorld ()) :=
  ⟨⟨by decide, by decide,
      ((defibCheck_threshold sampleWorld { fiveSecondTick with now := 6 * Second }).1
        (by decide) (by decide)).2.2.2.1,
      ((defibCheck_threshold sampleWorld { fiveSecondTick with now := 6 * Second }).1
        (by decide) (by decide)).2.2.2.2⟩,
    ⟨by decide, (defibCheck_threshold sampleWorld fiveSecondTick).2 (by decide)⟩⟩

/-! ## Start: failed handshake (C8), the way to Connected (C5) -/

theorem Start_failure_changes_nothing (w : World ε) (i : StartInput) (c : Conn)
    (hs : w.peer.State = PeerStateHandshake) (hc : w.peer.Connection = some c)
    (hf : i.handshake ≠ none ∨ i.certs = []) :
    ∃ e, Start w i = .ok w (some e) := by
  have hne : w.peer.State ≠ PeerStateConnected := by rw [hs]; decide
  unfold Start
  rw [if_neg (by simpa using hs)]
  simp only [hc, Disconnect_of_not_connected w hne]
  cases hh : i.handshake with
  | some e => exact ⟨_, rfl⟩
  | none =>
    rcases hf with hf | hf
    · exact absurd hh hf
    · simp [hf]

/-- C8: on a peer in state Handshake, `Start` with a failed handshake, or with no peer
certificate, returns an error and starts no loop, but the call of `Disconnect` does nothing
because the state is not Connected: the peer stays in state Handshake and its transport is
not closed. -/
theorem Start_failure_not_disconnected :
    acceptedWorld.peer.State = PeerStateHandshake ∧
    Start acceptedWorld failedHandshake = .ok acceptedWorld (some "TLS Handshake Failed") ∧
    Start acceptedWorld noCertificates = .ok acceptedWorld (some "Peer sent no certificates") ∧
    (Start acceptedWorld failedHandshake).state.peer.State ≠ PeerStateDisconnected ∧
    closeCount (Start acceptedWorld failedHandshake).state = 0 ∧
    (Start acceptedWorld failedHandshake).state.heartbeatLoops = 0 ∧
    (Start acceptedWorld failedHandshake).state.processLoops = 0 := by
  decide

theorem Start_of_not_handshake (w : World ε) (i : StartInput)
    (h : w.peer.State ≠ PeerStateHandshake) :
    Start w i = .ok w (some "Handshake not ready") := by
  unfold Start
  rw [if_pos h]

theorem Start_connected (w : World ε) (i : StartInput)
    (h : (Start w i).state.peer.State = PeerStateConnected) :
    w.peer.State = PeerStateConnected ∨
      (w.peer.State = PeerStateHandshake ∧ i.handshake = none ∧ i.certs ≠ [] ∧
        ∃ w1, Start w i = .ok w1 none) := by
  by_cases hs : w.peer.State = PeerStateHandshake
  · right
    have hne : w.peer.State ≠ PeerStateConnected := by rw [hs]; decide
    cases hc : w.peer.Connection with
    | none =>
      have : Start w i = .fault w := by
        unfold Start
        rw [if_neg (by simpa using hs)]
        simp only [hc]
      rw [this] at h
      exact absurd h hne
    | some c =>
      by_cases hf : i.handshake ≠ none ∨ i.certs = []
      · obtain ⟨e, he⟩ := Start_failure_changes_nothing w i c hs hc hf
        rw [he] at h
        exact absurd h hne
      · have h1 : i.handshake = none := by
          by_contra hx; exact hf (Or.inl hx)
        have h2 : i.certs ≠ [] := fun hx => hf (Or.inr hx)
        refine ⟨hs, h1, h2, ?_⟩
        have h3 : ¬ i.certs.length = 0 := by simpa using h2
        unfold Start
        rw [if_neg (by simpa using hs)]
        simp only [hc, h1, h3, if_false, SendDistribution, SendPeerlist, SendPacket]
        exact ⟨_, rfl⟩
  · left
    rw [Start_of_not_handshake w i hs] at h
    exact h

theorem Connect_state_not_connected (w : World ε) (dial : Except String Conn)
    (certs : List Certificate) :
    (Connect w dial certs).state.peer.State ≠ PeerStateConnected := by
  have hne : ¬ PeerStateConnecting = PeerStateConnected := by decide
  unfold Connect
  cases dial with
  | error e =>
    simp only
    rw [Disconnect_of_not_connected _ (by exact hne)]
    exact hne
  | ok conn =>
    simp only
    by_cases hz : certs.length = 0
    · rw [if_pos hz, Disconnect_of_not_connected _ (by exact hne)]
      exact hne
    · rw [if_neg hz]
      simp [Outcome.state, PeerStateHandshake, PeerStateConnected]

theorem heartbeatSwitch_of_not_connected (w : World ε) (i : TickInput)
    (h : w.peer.State ≠ PeerStateConnected) : (heartbeatSwitch w i).state = w := by
  unfold heartbeatSwitch
  rw [if_neg h]
  by_cases hd : w.peer.State = PeerStateDefib
  · rw [if_pos hd]
    by_cases h10 : Time.After i.nowDefib (Time.Add w.peer.LastHeartbeat (10 * Second)) = true
    · rw [if_pos h10]
      cases hc : w.peer.Connection with
      | none => rfl
      | some c =>
        simp only [Disconnect_of_not_connected w h]
        rfl
    · rw [if_neg h10]
      rfl
  · rw [if_neg hd]
    rfl

theorem defibCheck_cases (w : World ε) (now : Int) :
    (defibCheck w now).state = w ∨
      (defibCheck w now) = .ok { w with peer := { w.peer with State := PeerStateDefib } } () := by
  unfold defibCheck
  by_cases h : Time.After now (Time.Add w.peer.LastHeartbeat (5 * Second)) = true
  · rw [if_pos h]
    cases hc : w.peer.Connection with
    | none => left; rfl
    | some c => right; rfl
  · rw [if_neg h]
    left; rfl

theorem heartbeatTick_connected (w : World ε) (i : TickInput)
    (h : (heartbeatTick w i).state.peer.State = PeerStateConnected) :
    w.peer.State = PeerStateConnected := by
  by_contra hne
  have hdef : ¬ PeerStateDefib = PeerStateConnected := by decide
  unfold heartbeatTick at h
  rcases defibCheck_cases w i.now with hd | hd
  · cases hr : defibCheck w i.now with
    | fault w1 =>
      rw [hr] at hd h
      simp only [Outcome.state] at hd h
      rw [hd] at h
      exact hne h
    | blocked w1 =>
      rw [hr] at hd h
      simp only [Outcome.state] at hd h
      rw [hd] at h
      exact hne h
    | ok w1 r =>
      rw [hr] at hd h
      simp only [Outcome.state] at hd
      subst hd
      simp only at h
      rw [heartbeatSwitch_of_not_connected w1 i hne] at h
      exact hne h
  · rw [hd] at h
    simp only at h
    rw [heartbeatSwitch_of_not_connected _ i (by exact hdef)] at h
    exact hdef h

theorem SendPacket_peer (w : World ε) (packet : Packet) (err : GoError) :
    (SendPacket w packet err).state.peer = w.peer := by
  unfold SendPacket
  cases w.peer.Writer <;> rfl

theorem peerlistLoop_peer (env : Env ε) (peers : List String) (w : World ε) :
    (peerlistLoop env w peers).peer = w.peer := by
  induction peers generalizing w with
  | nil => rfl
  | cons k rest ih =>
    unfold peerlistLoop
    split
    · exact ih w
    · split
      · rw [ih]
      · exact ih w

theorem handleReply_peer_State (w : World ε) (packet : PacketRef) :
    (handleReply w packet).state.peer.State = w.peer.State := by
  unfold handleReply
  cases w.peer.Replies.find (w.load packet).RequestID with
  | some chn =>
    simp only
    split <;> rfl
  | none => cases w.peer.Connection <;> rfl

theorem handleKVStorePacket_peer (env : Env ε) (w : World ε) (packet : Packet)
    (fresh : PacketID) (err : GoError) :
    (handleKVStorePacket env w packet fresh err).state.peer = w.peer := by
  unfold handleKVStorePacket
  cases packet.Payload with
  | kv kvpacket =>
    obtain ⟨cmd, key, data, flags, expires⟩ := kvpacket
    cases cmd with
    | CMD_KVSTORE_SET =>
      simp only [handleKVStoreSet, SendPacket]
      cases w.peer.Connection <;> cases w.peer.Writer <;> rfl
    | CMD_KVSTORE_GET =>
      simp only [handleKVStoreGet, SendPacket]
      cases w.peer.Connection <;> cases w.peer.Writer <;> rfl
    | CMD_KVSTORE_DELETE =>
      simp only [handleKVStoreDelete, SendPacket]
      cases w.peer.Connection <;> cases w.peer.Writer <;> rfl
    | other code => rfl
  | nil => rfl
  | node n => rfl
  | peers l => rfl
  | str x => rfl

theorem dispatch_peer_State (env : Env ε) (w : World ε) (packet : Packet) (i : RecvInput) :
    (dispatch env w packet i).state.peer.State = w.peer.State := by
  obtain ⟨cmd, id, rid, payload⟩ := packet
  cases cmd with
  | CMD_HEARTBEAT => rfl
  | CMD_DISTRIBUTION =>
    simp only [dispatch]
    cases w.peer.Connection with
    | none => rfl
    | some c => cases payload <;> rfl
  | CMD_PEERLIST =>
    simp only [dispatch]
    cases payload with
    | peers l =>
      cases w.peer.Connection with
      | none => rfl
      | some c =>
        simp only [Outcome.state]
        rw [peerlistLoop_peer]
    | nil => rfl
    | node n => rfl
    | kv x => rfl
    | str x => rfl
  | CMD_KVSTORE =>
    simp only [dispatch]
    cases w.peer.Connection with
    | none => rfl
    | some c =>
      simp only
      rw [handleKVStorePacket_peer]
  | CMD_KVSTORE_ACK =>
    simp only [dispatch]
    cases w.peer.Connection with
    | none => rfl
    | some c =>
      simp only
      rw [handleReply_peer_State]
  | CMD_KVSTORE_NOT_FOUND =>
    simp only [dispatch]
    cases w.peer.Connection with
    | none => rfl
    | some c =>
      simp only
      rw [handleReply_peer_State]
  | other code =>
    simp only [dispatch]
    cases w.peer.Connection <;> rfl

theorem processStep_connected (env : Env ε) (w : World ε) (input : Except String Packet)
    (i : RecvInput) (h : (processStep env w input i).state.peer.State = PeerStateConnected) :
    w.peer.State = PeerStateConnected := by
  unfold processStep at h
  cases hr : w.peer.Reader with
  | none => rw [hr] at h; exact h
  | some rd =>
    rw [hr] at h
    cases input with
    | error e =>
      simp only at h
      cases hc : w.peer.Connection with
      | none => rw [hc] at h; exact h
      | some c =>
        rw [hc] at h
        simp only at h
        have := Disconnect_state_not_connected w
        cases hd : Disconnect w with
        | fault w1 => rw [hd] at h this; exact absurd h this
        | blocked w1 => rw [hd] at h this; exact absurd h this
        | ok w1 r => rw [hd] at h this; exact absurd h this
    | ok packet =>
      simp only at h
      have := dispatch_peer_State env w packet i
      cases hd : dispatch env w packet i with
      | fault w1 => rw [hd] at h this; rw [← this]; exact h
      | blocked w1 => rw [hd] at h this; rw [← this]; exact h
      | ok w1 r => rw [hd] at h this; rw [← this]; exact h

theorem Op.apply_connected (env : Env ε) (w : World ε) (op : Op)
    (hne : w.peer.State ≠ PeerStateConnected)
    (h : (Op.apply env w op).peer.State = PeerStateConnected) :
    ∃ i, op = .start i ∧ w.peer.State = PeerStateHandshake ∧ i.handshake = none ∧
      i.certs ≠ [] ∧ ∃ w1, Start w i = .ok w1 none := by
  cases op with
  | newPeer address now =>
    have hd : ¬ PeerStateDisconnected = PeerStateConnected := by decide
    exact absurd h hd
  | newConnectingPeer connection now =>
    cases connection with
    | none => exact absurd h hne
    | some c =>
      have hd : ¬ PeerStateHandshake = PeerStateConnected := by decide
      exact absurd h hd
  | connect dial certs => exact absurd h (Connect_state_not_connected w dial certs)
  | start i =>
    rcases Start_connected w i h with h1 | h1
    · exact absurd h1 hne
    · exact ⟨i, rfl, h1⟩
  | disconnect => exact absurd h (Disconnect_state_not_connected w)
  | heartbeatInit => exact absurd h hne
  | tick i => exact absurd (heartbeatTick_connected w i h) hne
  | receive input i => exact absurd (processStep_connected env w input i h) hne

theorem run_append (env : Env ε) (pre post : List Op) (w : World ε) :
    run env w (pre ++ post) = run env (run env w pre) post := by
  induction pre generalizing w with
  | nil => rfl
  | cons op pre ih => exact ih (Op.apply env w op)

/-- C5: over every sequence of operations on a peer that is not Connected at the outset
(as after `NewPeer` or `NewConnectingPeer`), if the peer ends up Connected then the sequence
contains a `Start` call that was made in state Handshake, whose TLS handshake returned no
error, whose connection state showed at least one peer certificate, and which returned nil
leaving the state Connected. And a `Start` call made in any state other than Handshake
returns an error and leaves the peer and everything else unchanged. -/
theorem Connected_only_through_Start (env : Env ε) :
    (∀ (ops : List Op) (w : World ε), w.peer.State ≠ PeerStateConnected →
      (run env w ops).peer.State = PeerStateConnected →
      ∃ pre i post, ops = pre ++ Op.start i :: post ∧
        (run env w pre).peer.State = PeerStateHandshake ∧
        i.handshake = none ∧ i.certs ≠ [] ∧
        ∃ w1, Start (run env w pre) i = .ok w1 none ∧
          w1.peer.State = PeerStateConnected) ∧
    (∀ (w : World ε) (i : StartInput), w.peer.State ≠ PeerStateHandshake →
      ∃ e, Start w i = .ok w (some e)) := by
  constructor
  · intro ops
    induction ops with
    | nil => intro w hne h; exact absurd h hne
    | cons op rest ih =>
      intro w hne h
      by_cases h1 : (Op.apply env w op).peer.State = PeerStateConnected
      · obtain ⟨i, hop, hs, hh, hcerts, w1, hw1⟩ := Op.apply_connected env w op hne h1
        subst hop
        refine ⟨[], i, rest, rfl, hs, hh, hcerts, w1, hw1, ?_⟩
        have : (Op.apply env w (.start i)) = w1 := by
          simp only [Op.apply, hw1, Outcome.state]
        rw [← this]
        exact h1
      · obtain ⟨pre, i, post, hops, hs, hh, hcerts, hw1⟩ := ih (Op.apply env w op) h1 h
        exact ⟨op :: pre, i, post, by rw [hops]; rfl, hs, hh, hcerts, hw1⟩
  · intro w i h
    exact ⟨_, Start_of_not_handshake w i h⟩

/-- The instance of C5 on an accepted connection that is started with a good handshake,
and on a `Start` call made on a peer fresh from `NewPeer`. -/
theorem Connected_only_through_Start_witness :
    (freshWorld.peer.State ≠ PeerStateConnected ∧
      (run idleEnv freshWorld
        [.newConnectingPeer (some sampleConn) 0, .start goodStart]).peer.State
        = PeerStateConnected ∧
      ∃ pre i post,
        [Op.newConnectingPeer (some sampleConn) 0, Op.start goodStart]
          = pre ++ Op.start i :: post ∧
        (run idleEnv freshWorld pre).peer.State = PeerStateHandshake ∧
        i.handshake = none ∧ i.certs ≠ [] ∧
        ∃ w1, Start (run idleEnv freshWorld pre) i = .ok w1 none ∧
          w1.peer.State = PeerStateConnected) ∧
    (freshWorld.peer.State ≠ PeerStateHandshake ∧
      ∃ e, Start freshWorld goodStart = .ok freshWorld (some e)) :=
  ⟨⟨by decide, by decide,
      (Connected_only_through_Start idleEnv).1
        [.newConnectingPeer (some sampleConn) 0, .start goodStart] freshWorld
        (by decide) (by decide)⟩,
    ⟨by decide, (Connected_only_through_Start idleEnv).2 freshWorld goodStart (by decide)⟩⟩

/-! ## Key-value handlers: Get and Delete (C2), Set then Get (C3) -/

theorem handleKVStoreGet_eq (env : Env ε) (w : World ε) (c : Conn) (wr : Codec)
    (packet : KVStorePacket) (request : Packet) (fresh : PacketID) (err : GoError)
    (hc : w.peer.Connection = some c) (hw : w.peer.Writer = some wr) :
    handleKVStoreGet env w packet request fresh err =
      .ok { w with
            server := { w.server with ext := (env.kvGet w.server.ext packet.Key).2 }
            sent := w.sent ++
              [if (env.kvGet w.server.ext packet.Key).1.2.2 then
                NewResponsePacket fresh .CMD_KVSTORE_ACK request.ID (.kv
                  { Command := .CMD_KVSTORE_GET
                    Key := packet.Key
                    Data := (env.kvGet w.server.ext packet.Key).1.1
                    Flags := (env.kvGet w.server.ext packet.Key).1.2.1
                    ExpiresAt := 0 })
              else
                NewResponsePacket fresh .CMD_KVSTORE_NOT_FOUND request.ID (.str packet.Key)] }
        () := by
  simp only [handleKVStoreGet, SendPacket, hc, hw]

theorem handleKVStoreDelete_eq (env : Env ε) (w : World ε) (c : Conn) (wr : Codec)
    (packet : KVStorePacket) (request : Packet) (fresh : PacketID) (err : GoError)
    (hc : w.peer.Connection = some c) (hw : w.peer.Writer = some wr) :
    handleKVStoreDelete env w packet request fresh err =
      .ok { w with
            server := { w.server with ext := (env.kvDelete w.server.ext packet.Key).2 }
            sent := w.sent ++
              [if (env.kvDelete w.server.ext packet.Key).1 then
                NewResponsePacket fresh .CMD_KVSTORE_ACK request.ID (.str packet.Key)
              else
                NewResponsePacket fresh .CMD_KVSTORE_NOT_FOUND request.ID (.str packet.Key)] }
        () := by
  simp only [handleKVStoreDelete, SendPacket, hc, hw]

theorem handleKVStoreSet_eq (env : Env ε) (w : World ε) (c : Conn) (wr : Codec)
    (packet : KVStorePacket) (request : Packet) (fresh : PacketID) (err : GoError)
    (hc : w.peer.Connection = some c) (hw : w.peer.Writer = some wr) :
    handleKVStoreSet env w packet request fresh err =
      .ok { w with
            server := { w.server with
              ext := env.kvSet w.server.ext packet.Key packet.Data packet.Flags
                packet.ExpiresAt }
            sent := w.sent ++
              [NewResponsePacket fresh .CMD_KVSTORE_ACK request.ID (.str packet.Key)] }
        () := by
  simp only [handleKVStoreSet, SendPacket, hc, hw]

/-- C2: on a peer with a transport and an encoder (as after `Start`), for every Get or
Delete request and every store, the handler completes and hands exactly one packet to the
encoder. The reply echoes the request's ID; it is `CMD_KVSTORE_NOT_FOUND` with the key as
payload exactly when the store reports not found; otherwise it is `CMD_KVSTORE_ACK`,
carrying for Get a KV sub-packet with the same key and the data and flags the store
returned, and for Delete the key. -/
theorem handleKVStore_get_delete_reply (env : Env ε) (w : World ε) (c : Conn) (wr : Codec)
    (packet : KVStorePacket) (request : Packet) (fresh : PacketID) (err : GoError)
    (hc : w.peer.Connection = some c) (hw : w.peer.Writer = some wr) :
    (∃ w1 reply, handleKVStoreGet env w packet request fresh err = .ok w1 () ∧
      w1.sent = w.sent ++ [reply] ∧ reply.RequestID = request.ID ∧
      (reply.Command = .CMD_KVSTORE_NOT_FOUND ↔
        (env.kvGet w.server.ext packet.Key).1.2.2 = false) ∧
      ((env.kvGet w.server.ext packet.Key).1.2.2 = false →
        reply.Command = .CMD_KVSTORE_NOT_FOUND ∧ reply.Payload = .str packet.Key) ∧
      ((env.kvGet w.server.ext packet.Key).1.2.2 = true →
        reply.Command = .CMD_KVSTORE_ACK ∧
        reply.Payload = .kv
          { Command := .CMD_KVSTORE_GET
            Key := packet.Key
            Data := (env.kvGet w.server.ext packet.Key).1.1
            Flags := (env.kvGet w.server.ext packet.Key).1.2.1
            ExpiresAt := 0 })) ∧
    (∃ w1 reply, handleKVStoreDelete env w packet request fresh err = .ok w1 () ∧
      w1.sent = w.sent ++ [reply] ∧ reply.RequestID = request.ID ∧
      (reply.Command = .CMD_KVSTORE_NOT_FOUND ↔
        (env.kvDelete w.server.ext packet.Key).1 = false) ∧
      reply.Payload = .str packet.Key ∧
      ((env.kvDelete w.server.ext packet.Key).1 = true →
        reply.Command = .CMD_KVSTORE_ACK)) := by
  constructor
  · refine ⟨_, _, handleKVStoreGet_eq env w c wr packet request fresh err hc hw, rfl, ?_⟩
    cases hf : (env.kvGet w.server.ext packet.Key).1.2.2 <;> simp [NewResponsePacket]
  · refine ⟨_, _, handleKVStoreDelete_eq env w c wr packet request fresh err hc hw, rfl, ?_⟩
    cases hf : (env.kvDelete w.server.ext packet.Key).1 <;> simp [NewResponsePacket]

/-- The instance of C2 on the sample peer over the empty store: Get and Delete for the key
"missing", sent as request 42, are each answered by one `CMD_KVSTORE_NOT_FOUND` packet that
echoes 42 and the key. -/
theorem handleKVStore_get_delete_reply_witness :
    sampleWorld.peer.Connection = some sampleConn ∧
    sampleWorld.peer.Writer = some ⟨"10.0.0.2:13531"⟩ ∧
    (∃ w1 reply,
      handleKVStoreGet idleEnv sampleWorld missingGet missingRequest 77 none = .ok w1 () ∧
      w1.sent = [reply] ∧ reply.Command = .CMD_KVSTORE_NOT_FOUND ∧ reply.RequestID = 42 ∧
      reply.Payload = .str "missing") ∧
    (∃ w1 reply,
      handleKVStoreDelete idleEnv sampleWorld missingGet missingRequest 77 none = .ok w1 () ∧
      w1.sent = [reply] ∧ reply.Command = .CMD_KVSTORE_NOT_FOUND ∧ reply.RequestID = 42 ∧
      reply.Payload = .str "missing") := by
  have h := handleKVStore_get_delete_reply idleEnv sampleWorld sampleConn ⟨"10.0.0.2:13531"⟩
    missingGet missingRequest 77 none rfl rfl
  obtain ⟨⟨w1, r1, hg, hs1, hid1, _, hnf1, _⟩, ⟨w2, r2, hd, hs2, hid2, hnf2, hp2, _⟩⟩ := h
  exact ⟨rfl, rfl, ⟨w1, r1, hg, hs1, (hnf1 rfl).1, hid1, (hnf1 rfl).2⟩,
    ⟨w2, r2, hd, hs2, hnf2.2 rfl, hid2, hp2⟩⟩

/-- C3: on a peer with a transport and an encoder, handling a Set request calls the store's
`Set` with the request's key, value, flags and expiry whatever they are, and hands exactly
one packet to the encoder: `CMD_KVSTORE_ACK` with the key as payload, echoing the Set
request's ID. If moreover the store's `Get` returns the last value `Set` for a key, then
handling a Get request for the same key next hands over `CMD_KVSTORE_ACK` whose KV
sub-packet has that key, value and flags, echoing the Get request's ID. -/
theorem handleKVStore_set_then_get (env : Env ε) (w : World ε) (c : Conn) (wr : Codec)
    (setPacket getPacket : KVStorePacket) (setRequest getRequest : Packet)
    (fresh1 fresh2 : PacketID) (err1 err2 : GoError)
    (hc : w.peer.Connection = some c) (hw : w.peer.Writer = some wr)
    (hk : getPacket.Key = setPacket.Key) :
    ∃ w1, handleKVStoreSet env w setPacket setRequest fresh1 err1 = .ok w1 () ∧
      w1.server.ext = env.kvSet w.server.ext setPacket.Key setPacket.Data setPacket.Flags
        setPacket.ExpiresAt ∧
      w1.sent = w.sent ++
        [{ Command := .CMD_KVSTORE_ACK, ID := fresh1, RequestID := setRequest.ID,
           Payload := .str setPacket.Key }] ∧
      ((∀ s k v f e, (env.kvGet (env.kvSet s k v f e) k).1 = (v, f, true)) →
        ∃ w2, handleKVStoreGet env w1 getPacket getRequest fresh2 err2 = .ok w2 () ∧
          w2.sent = w1.sent ++
            [{ Command := .CMD_KVSTORE_ACK, ID := fresh2, RequestID := getRequest.ID,
               Payload := .kv
                 { Command := .CMD_KVSTORE_GET, Key := setPacket.Key, Data := setPacket.Data,
                   Flags := setPacket.Flags, ExpiresAt := 0 } }]) := by
  refine ⟨_, handleKVStoreSet_eq env w c wr setPacket setRequest fresh1 err1 hc hw, rfl, rfl,
    ?_⟩
  intro law
  have h := law w.server.ext setPacket.Key setPacket.Data setPacket.Flags setPacket.ExpiresAt
  refine ⟨_, handleKVStoreGet_eq env _ c wr getPacket getRequest fresh2 err2 hc hw, ?_⟩
  simp [NewResponsePacket, hk, h]

theorem storeEnv_get_set (s : GoMap String (Bytes × Nat)) (k : String) (v : Bytes) (f : Nat)
    (e : Int) : (storeEnv.kvGet (storeEnv.kvSet s k v f e) k).1 = (v, f, true) := by
  simp only [storeEnv, GoMap.find_insert_self]

/-- The instance of C3 for key "a" and value "1" over the sample store: the Set request 10
is acknowledged with the key, and the Get request 11 with the value. -/
theorem handleKVStore_set_then_get_witness :
    (∀ s k v f e, (storeEnv.kvGet (storeEnv.kvSet s k v f e) k).1 = (v, f, true)) ∧
    ∃ w1 w2,
      handleKVStoreSet storeEnv storeWorld setA
        { Command := .CMD_KVSTORE, ID := 10, RequestID := 0, Payload := .kv setA } 20 none
        = .ok w1 () ∧
      w1.sent = [{ Command := .CMD_KVSTORE_ACK, ID := 20, RequestID := 10,
                   Payload := .str "a" }] ∧
      handleKVStoreGet storeEnv w1 getA
        { Command := .CMD_KVSTORE, ID := 11, RequestID := 0, Payload := .kv getA } 21 none
        = .ok w2 () ∧
      w2.sent = w1.sent ++
        [{ Command := .CMD_KVSTORE_ACK, ID := 21, RequestID := 11,
           Payload := .kv
             { Command := .CMD_KVSTORE_GET, Key := "a", Data := [49], Flags := 0,
               ExpiresAt := 0 } }] := by
  refine ⟨storeEnv_get_set, ?_⟩
  obtain ⟨w1, h1, _, h3, h4⟩ :=
    handleKVStore_set_then_get storeEnv storeWorld sampleConn ⟨"10.0.0.2:13531"⟩ setA getA
      { Command := .CMD_KVSTORE, ID := 10, RequestID := 0, Payload := .kv setA }
      { Command := .CMD_KVSTORE, ID := 11, RequestID := 0, Payload := .kv getA }
      20 21 none none rfl rfl rfl
  obtain ⟨w2, h5, h6⟩ := h4 storeEnv_get_set
  exact ⟨w1, w2, h1, h3, h5, h6⟩

/-! ## Reply correlator (C4) -/

theorem handleReply_delivers (w : World ε) (packet : PacketRef) (chn : ChanRef)
    (h : w.peer.Replies.find (w.load packet).RequestID = some chn)
    (hr : chn ∈ w.receiving) :
    handleReply w packet =
      .ok { w with
            peer := { w.peer with
              Replies := w.peer.Replies.delete (w.load packet).RequestID }
            receiving := w.receiving.erase chn
            delivered := w.delivered ++ [(chn, packet)] } () := by
  simp only [handleReply, h, hr, if_true]

theorem handleReply_parked (w : World ε) (packet : PacketRef) (chn : ChanRef)
    (h : w.peer.Replies.find (w.load packet).RequestID = some chn)
    (hr : chn ∉ w.receiving) :
    handleReply w packet =
      .blocked { w with
                 peer := { w.peer with
                   Replies := w.peer.Replies.delete (w.load packet).RequestID } } := by
  simp only [handleReply, h, hr, if_false]

theorem handleReply_unsolicited_state (w : World ε) (packet : PacketRef)
    (h : w.peer.Replies.find (w.load packet).RequestID = none) :
    (handleReply w packet).state = w := by
  simp only [handleReply, h]
  cases w.peer.Connection <;> rfl

theorem handleReply_packet (w : World ε) (packet : PacketRef) :
    (handleReply w packet).state.packet = w.packet := by
  unfold handleReply
  cases w.peer.Replies.find (w.load packet).RequestID with
  | some chn =>
    simp only
    split <;> rfl
  | none => cases w.peer.Connection <;> rfl

theorem peerlistLoop_packet (env : Env ε) (peers : List String) (w : World ε) :
    (peerlistLoop env w peers).packet = w.packet := by
  induction peers generalizing w with
  | nil => rfl
  | cons k rest ih =>
    unfold peerlistLoop
    split
    · exact ih w
    · split
      · rw [ih]
      · exact ih w

theorem handleKVStorePacket_packet (env : Env ε) (w : World ε) (packet : Packet)
    (fresh : PacketID) (err : GoError) :
    (handleKVStorePacket env w packet fresh err).state.packet = w.packet := by
  unfold handleKVStorePacket
  cases packet.Payload with
  | kv kvpacket =>
    obtain ⟨cmd, key, data, flags, expires⟩ := kvpacket
    cases cmd with
    | CMD_KVSTORE_SET =>
      simp only [handleKVStoreSet, SendPacket]
      cases w.peer.Connection <;> cases w.peer.Writer <;> rfl
    | CMD_KVSTORE_GET =>
      simp only [handleKVStoreGet, SendPacket]
      cases w.peer.Connection <;> cases w.peer.Writer <;> rfl
    | CMD_KVSTORE_DELETE =>
      simp only [handleKVStoreDelete, SendPacket]
      cases w.peer.Connection <;> cases w.peer.Writer <;> rfl
    | other code => rfl
  | nil => rfl
  | node n => rfl
  | peers l => rfl
  | str x => rfl

theorem dispatch_packet (env : Env ε) (w : World ε) (packet : Packet) (i : RecvInput) :
    (dispatch env w packet i).state.packet = packet := by
  obtain ⟨cmd, id, rid, payload⟩ := packet
  cases cmd with
  | CMD_HEARTBEAT => rfl
  | CMD_DISTRIBUTION =>
    simp only [dispatch]
    cases w.peer.Connection with
    | none => rfl
    | some c => cases payload <;> rfl
  | CMD_PEERLIST =>
    simp only [dispatch]
    cases payload with
    | peers l =>
      cases w.peer.Connection with
      | none => rfl
      | some c =>
        simp only [Outcome.state]
        rw [peerlistLoop_packet]
    | nil => rfl
    | node n => rfl
    | kv x => rfl
    | str x => rfl
  | CMD_KVSTORE =>
    simp only [dispatch]
    cases w.peer.Connection with
    | none => rfl
    | some c =>
      simp only
      rw [handleKVStorePacket_packet]
  | CMD_KVSTORE_ACK =>
    simp only [dispatch]
    cases w.peer.Connection with
    | none => rfl
    | some c =>
      simp only
      rw [handleReply_packet]
  | CMD_KVSTORE_NOT_FOUND =>
    simp only [dispatch]
    cases w.peer.Connection with
    | none => rfl
    | some c =>
      simp only
      rw [handleReply_packet]
  | other code =>
    simp only [dispatch]
    cases w.peer.Connection <;> rfl

theorem processStep_overwrites (env : Env ε) (w : World ε) (rd : Codec) (next : Packet)
    (i : RecvInput) (hr : w.peer.Reader = some rd) :
    (processStep env w (.ok next) i).state.load .processPacket = next := by
  have h := dispatch_packet env w next i
  unfold processStep
  rw [hr]
  simp only
  cases hd : dispatch env w next i with
  | fault w1 => rw [hd] at h; exact h
  | blocked w1 => rw [hd] at h; exact h
  | ok w1 r => rw [hd] at h; exact h

/-- C4: a caller sends request 9 through `SendPacketWaitReply` and waits; the remote node
answers with the reply to 9 and then sends a reply to the unknown request 6. `handleReply`
does its part: it removes the entry of 9 and sends on that entry's channel, and the reply
to 6 is delivered nowhere. But what it sends is the address of the one variable `packet` of
`process`, and the next `Decode` writes into that variable: the reply that
`SendPacketWaitReply` returns to the caller shows RequestID 6, not 9. -/
theorem SendPacketWaitReply_reply_overwritten :
    SendPacketWaitReply_send sampleWorld request9 none = .ok callerSent () ∧
    callerSent.peer.Replies.find request9.ID = some 0 ∧
    callerSent.sent = [request9] ∧
    SendPacketWaitReply_receive callerSent request9 = .ok callerWaiting 0 ∧
    callerWaiting.receiving = [0] ∧
    processStep idleEnv callerWaiting (.ok (replyTo 9)) ⟨0, 0, none⟩
      = .ok replyHandled .again ∧
    replyHandled.peer.Replies.find 9 = none ∧
    replyHandled.delivered = [(0, .processPacket)] ∧
    (replyHandled.load .processPacket).RequestID = request9.ID ∧
    processStep idleEnv replyHandled (.ok (replyTo 6)) ⟨0, 0, none⟩
      = .ok nextDecoded .again ∧
    nextDecoded.delivered = [(0, .processPacket)] ∧
    SendPacketWaitReply_return nextDecoded 0 = .ok nextDecoded (.processPacket, none) ∧
    (nextDecoded.load .processPacket).RequestID = 6 ∧
    (nextDecoded.load .processPacket).RequestID ≠ request9.ID := by
  decide

/-- A second slip on the same path: when the receive loop handles the reply to request 9
after the caller has sent the request and before the caller has entered its receive,
`handleReply` removes the entry and is parked in its send, and the caller, reading the map
again, finds no channel and is parked as well. -/
theorem SendPacketWaitReply_reply_before_receive :
    processStep idleEnv callerSent (.ok (replyTo 9)) ⟨0, 0, none⟩ = .blocked replyTooEarly ∧
    replyTooEarly.peer.Replies.find request9.ID = none ∧
    replyTooEarly.delivered = [] ∧
    SendPacketWaitReply_receive replyTooEarly request9 = .blocked replyTooEarly := by
  decide

/-! ## Gossip: the peer list (C10) -/

theorem peerlistLoop_connectCalls (env : Env ε) (peers : List String) (w : World ε) :
    (peerlistLoop env w peers).connectCalls
      = w.connectCalls ++ expectedDials env w.server peers := by
  induction peers generalizing w with
  | nil => simp [peerlistLoop, expectedDials]
  | cons k rest ih =>
    rw [peerlistLoop, expectedDials]
    by_cases hself : env.ListenAddr = k
    · have hk : ¬ (k ≠ env.ListenAddr ∧ env.IsConnectedTo w.server k = false) :=
        fun h => h.1 hself.symm
      rw [if_pos hself, if_neg hk]
      exact ih w
    · by_cases hconn : env.IsConnectedTo w.server k = false
      · have hk : k ≠ env.ListenAddr ∧ env.IsConnectedTo w.server k = false :=
          ⟨fun h => hself h.symm, hconn⟩
        have hb : (!env.IsConnectedTo w.server k) = true := by rw [hconn]; rfl
        rw [if_neg hself, if_pos hk, if_pos hb, ih]
        simp
      · have hk : ¬ (k ≠ env.ListenAddr ∧ env.IsConnectedTo w.server k = false) :=
          fun h => hconn h.2
        have hb : ¬ (!env.IsConnectedTo w.server k) = true := by
          cases h : env.IsConnectedTo w.server k
          · exact absurd h hconn
          · simp
        rw [if_neg hself, if_neg hk, if_neg hb]
        exact ih w

theorem expectedDials_sublist (env : Env ε) (peers : List String) (srv : TLSServer ε) :
    (expectedDials env srv peers).Sublist peers := by
  induction peers generalizing srv with
  | nil => exact List.Sublist.slnil
  | cons k rest ih =>
    unfold expectedDials
    split
    · exact (ih _).cons₂ k
    · exact (ih _).cons k

theorem expectedDials_not_self (env : Env ε) (peers : List String) (srv : TLSServer ε) :
    env.ListenAddr ∉ expectedDials env srv peers := by
  induction peers generalizing srv with
  | nil => simp [expectedDials]
  | cons k rest ih =>
    unfold expectedDials
    split
    · rename_i h
      intro hmem
      rcases List.mem_cons.1 hmem with h1 | h1
      · exact h.1 h1.symm
      · exact ih _ h1
    · exact ih _

theorem expectedDials_not_connected (env : Env ε) (k : String)
    (hk : ∀ srv, env.IsConnectedTo srv k = true) (peers : List String) (srv : TLSServer ε) :
    k ∉ expectedDials env srv peers := by
  induction peers generalizing srv with
  | nil => simp [expectedDials]
  | cons a rest ih =>
    unfold expectedDials
    split
    · rename_i h
      intro hmem
      rcases List.mem_cons.1 hmem with h1 | h1
      · rw [← h1, hk srv] at h
        exact absurd h.2 (by simp)
      · exact ih _ h1
    · exact ih _

theorem expectedDials_filter (env : Env ε)
    (hstable : ∀ srv a b, env.IsConnectedTo (env.ConnectTo srv a) b = env.IsConnectedTo srv b)
    (peers : List String) (srv : TLSServer ε) :
    expectedDials env srv peers
      = peers.filter (fun k => decide (k ≠ env.ListenAddr) && !env.IsConnectedTo srv k) := by
  have hcongr : ∀ (l : List String) (s1 s2 : TLSServer ε),
      (∀ b, env.IsConnectedTo s1 b = env.IsConnectedTo s2 b) →
      expectedDials env s1 l = expectedDials env s2 l := by
    intro l
    induction l with
    | nil => intro s1 s2 _; rfl
    | cons a rest ih =>
      intro s1 s2 h
      unfold expectedDials
      rw [h a]
      split
      · rw [ih (env.ConnectTo s1 a) (env.ConnectTo s2 a) (by
          intro b; rw [hstable, hstable, h b])]
      · exact ih s1 s2 h
  induction peers with
  | nil => rfl
  | cons k rest ih =>
    unfold expectedDials
    split
    · rename_i h
      rw [hcongr rest (env.ConnectTo srv k) srv (fun b => hstable srv k b), ih]
      simp [List.filter_cons, h.1, h.2]
    · rename_i h
      rw [ih]
      have : (decide (k ≠ env.ListenAddr) && !env.IsConnectedTo srv k) = false := by
        by_cases h1 : k = env.ListenAddr
        · simp [h1]
        · cases h2 : env.IsConnectedTo srv k
          · exact absurd ⟨h1, h2⟩ h
          · simp
      rw [List.filter_cons, this]
      simp

/-- C10: on a peer with a transport, handling a `CMD_PEERLIST` packet that carries the
addresses `peers` (repeats allowed) completes, and the `ConnectTo` calls it makes are
exactly, in order, the addresses of the list that differ from the own listen address and
that `IsConnectedTo` reported as not connected when the address was examined. They are
taken from the list in its order; the own listen address is never among them; an address
that the server reports as connected is never among them; a list with the single unknown
address C gives the single call C; and when a dial does not change what `IsConnectedTo`
answers, the calls are the list filtered by the two tests. -/
theorem peerlist_dials (env : Env ε) (w : World ε) (c : Conn) (packet : Packet)
    (peers : List String) (i : RecvInput)
    (hcmd : packet.Command = .CMD_PEERLIST) (hp : packet.Payload = .peers peers)
    (hc : w.peer.Connection = some c) :
    ∃ w1, dispatch env w packet i = .ok w1 () ∧
      w1.connectCalls = w.connectCalls ++ expectedDials env w.server peers ∧
      (expectedDials env w.server peers).Sublist peers ∧
      env.ListenAddr ∉ expectedDials env w.server peers ∧
      (∀ k, (∀ srv, env.IsConnectedTo srv k = true) →
        k ∉ expectedDials env w.server peers) ∧
      (∀ k, peers = [k] → k ≠ env.ListenAddr → env.IsConnectedTo w.server k = false →
        w1.connectCalls = w.connectCalls ++ [k]) ∧
      ((∀ srv a b, env.IsConnectedTo (env.ConnectTo srv a) b = env.IsConnectedTo srv b) →
        expectedDials env w.server peers
          = peers.filter
              (fun k => decide (k ≠ env.ListenAddr) && !env.IsConnectedTo w.server k)) := by
  have hd : dispatch env w packet i
      = .ok (peerlistLoop env { w with packet := packet } peers) () := by
    simp only [dispatch, hcmd, hp, hc]
  refine ⟨_, hd, peerlistLoop_connectCalls env peers _, expectedDials_sublist env peers _,
    expectedDials_not_self env peers _, ?_, ?_, ?_⟩
  · intro k hk
    exact expectedDials_not_connected env k hk peers _
  · intro k hpeers hne hconn
    rw [peerlistLoop_connectCalls, hpeers]
    simp [expectedDials, hne, hconn]
  · intro hstable
    exact expectedDials_filter env hstable peers _

/-- The instance of C10 for node A: the peer list from B makes A dial C, once. -/
theorem peerlist_dials_witness :
    gossipPacket.Command = .CMD_PEERLIST ∧
    gossipWorld.peer.Connection = some sampleConn ∧
    ∃ w1, dispatch dialEnv gossipWorld gossipPacket ⟨0, 0, none⟩ = .ok w1 () ∧
      w1.connectCalls = ["10.0.0.3:13531"] := by
  refine ⟨rfl, rfl, ?_⟩
  obtain ⟨w1, h1, h2, _⟩ :=
    peerlist_dials dialEnv gossipWorld sampleConn gossipPacket
      ["10.0.0.1:13531", "10.0.0.3:13531", "10.0.0.2:13531", "10.0.0.3:13531"] ⟨0, 0, none⟩
      rfl rfl rfl
  refine ⟨w1, h1, ?_⟩
  rw [h2]
  decide

end Trinity
